import Mathlib

/-!
Shallow embedding of the point-tracking Telegram bot (`web.py`) and proofs
of the specification claims about it.

The embedding models the decision engine of `web.py`:
`is_valid_text_for_points`, the SQLite-backed point store
(`ensure_user_in_db`, `add_point_to_db`, `get_user_points_from_db`,
`get_leaderboard_from_db`), the in-memory cooldown cache, and the four bot
handlers (`start_handler`, `give_point_handler`, `points_handler`,
`leaderboard_handler`).  Strings are Lean `String`s (lists of characters);
The Python float clock is modelled by `ℚ`; SQLite tables are Lean lists.
The `created_at` column (a wall-clock default never read by any handler) and
the auto-increment `id` column (only ever counted) are not modelled.
-/

namespace Point

/-- Whitespace test used by the Python `str.strip` method. -/
def isWS (c : Char) : Bool := c.isWhitespace

/-- Python `str.strip()` on a character list: drop whitespace from both ends. -/
def pyStripList (l : List Char) : List Char :=
  ((l.dropWhile isWS).reverse.dropWhile isWS).reverse

/-- Python `str.strip()`. -/
def pyStrip (s : String) : String := ⟨pyStripList s.data⟩

/-- SQLite `TRIM`, which removes only space characters from both ends. -/
def sqlTrimList (l : List Char) : List Char :=
  ((l.dropWhile (fun c => c == ' ')).reverse.dropWhile (fun c => c == ' ')).reverse

/-- SQLite `TRIM` on `String`. -/
def sqlTrim (s : String) : String := ⟨sqlTrimList s.data⟩

/-- The regex `[a-zA-Z]` character test. -/
def isAsciiLetter (c : Char) : Bool :=
  decide ((97 ≤ c.toNat ∧ c.toNat ≤ 122) ∨ (65 ≤ c.toNat ∧ c.toNat ≤ 90))

/-- The regex `[aeiouAEIOU]` character test. -/
def isVowel (c : Char) : Bool :=
  ['a', 'e', 'i', 'o', 'u', 'A', 'E', 'I', 'O', 'U'].contains c

/-- Embeds `re.fullmatch(r"(.)\1{2,}", t)`: the whole string is one captured
character (any character except a newline, since `.` does not match `\n`)
followed by at least two repetitions of it. -/
def isRepeatedCharMatch (l : List Char) : Bool :=
  match l with
  | [] => false
  | c :: rest => c != '\n' && decide (2 ≤ rest.length) && rest.all (fun d => d == c)

/-- Embeds `web.py` `is_valid_text_for_points`, with the module-level `MIN_CHARS`
made an explicit parameter (it is read from the environment, default 15). -/
def is_valid_text_for_points (min_chars : Nat) (text : String) : Bool :=
  if (pyStrip text).length < min_chars then false
  else if !((pyStrip text).data.any isAsciiLetter) then false
  else if !((pyStrip text).data.any isVowel) then false
  else if isRepeatedCharMatch (pyStrip text).data then false
  else true

/-- A row of the `users` table. -/
structure UserRow where
  user_id : Int
  first_name : Option String
  last_name : Option String
deriving DecidableEq, Repr

/-- A row of the `points` table. -/
structure PointRow where
  user_id : Int
  ts : Int
  meta : Option String
deriving DecidableEq, Repr

/-- The SQLite database: the `users` and `points` tables. -/
structure DB where
  users : List UserRow
  points : List PointRow
deriving DecidableEq, Repr

/-- Embeds `init_db`: both tables start empty. -/
def init_db : DB := ⟨[], []⟩

/-- The `DO UPDATE SET first_name=excluded.first_name, last_name=excluded.last_name`
action on one row: refresh the name fields when the row key matches. -/
def updateNames (uid : Int) (fn ln : Option String) (u : UserRow) : UserRow :=
  if u.user_id == uid then { u with first_name := fn, last_name := ln } else u

/-- Embeds `web.py` `ensure_user_in_db`: `INSERT ... ON CONFLICT(user_id) DO UPDATE`
refreshing the name fields of an existing row, else inserting a new row. -/
def ensure_user_in_db (db : DB) (uid : Int) (fn ln : Option String) : DB :=
  if db.users.any (fun u => u.user_id == uid) then
    { db with users := db.users.map (updateNames uid fn ln) }
  else
    { db with users := db.users ++ [⟨uid, fn, ln⟩] }

/-- Embeds `web.py` `add_point_to_db`: append one row to `points`. -/
def add_point_to_db (db : DB) (uid : Int) (ts : Int) (meta : Option String) : DB :=
  { db with points := db.points ++ [⟨uid, ts, meta⟩] }

/-- Embeds `web.py` `get_user_points_from_db`: `SELECT COUNT(*) FROM points WHERE user_id = ?`. -/
def get_user_points_from_db (db : DB) (uid : Int) : Nat :=
  (db.points.filter (fun p => p.user_id == uid)).length

/-- One pre-projection row of the leaderboard query (the grouped join row,
before `SELECT` projects it; `ORDER BY` reads `u.first_name` from it). -/
structure LBEntry where
  user_id : Int
  first_name : Option String
  last_name : Option String
  points : Nat
deriving DecidableEq, Repr

/-- The grouped rows of the leaderboard query: one entry per `users` row with
its `COUNT(p.id)` from the left join (0 when the user has no points). -/
def lbEntries (db : DB) : List LBEntry :=
  db.users.map (fun u =>
    ⟨u.user_id, u.first_name, u.last_name, get_user_points_from_db db u.user_id⟩)

/-- Byte/code-point lexicographic `≤` on character lists (SQLite BINARY
collation; UTF-8 byte order coincides with code-point order). -/
def listLeChar : List Char → List Char → Bool
  | [], _ => true
  | _ :: _, [] => false
  | a :: as, b :: bs =>
    if a.toNat < b.toNat then true
    else if b.toNat < a.toNat then false
    else listLeChar as bs

/-- SQLite `ASC` ordering on a nullable text column: `NULL` sorts first. -/
def nameLE : Option String → Option String → Bool
  | none, _ => true
  | some _, none => false
  | some a, some b => listLeChar a.data b.data

/-- The `ORDER BY points DESC, u.first_name ASC` ordering on grouped rows. -/
def lbLE (x y : LBEntry) : Prop :=
  y.points < x.points ∨ (x.points = y.points ∧ nameLE x.first_name y.first_name = true)

instance : DecidableRel lbLE := fun x y => by
  unfold lbLE; infer_instance

/-- The grouped rows sorted by the `ORDER BY` clause. -/
def sortedEntries (db : DB) : List LBEntry :=
  List.insertionSort lbLE (lbEntries db)

/-- SQLite `TRIM(u.first_name || ' ' || IFNULL(u.last_name, ''))`: `NULL`
when `first_name` is `NULL` (string concatenation with `NULL` is `NULL`). -/
def full_name (fn ln : Option String) : Option String :=
  fn.map (fun f => sqlTrim (f ++ " " ++ ln.getD ("")))

/-- The `SELECT` projection of one leaderboard row. -/
def lbRow (e : LBEntry) : Int × Option String × Nat :=
  (e.user_id, full_name e.first_name e.last_name, e.points)

/-- Embeds `web.py` `get_leaderboard_from_db`: the grouped join, ordered by
`points DESC, first_name ASC`, projected and truncated by `LIMIT`. -/
def get_leaderboard_from_db (db : DB) (limit : Nat) : List (Int × Option String × Nat) :=
  ((sortedEntries db).map lbRow).take limit

/-- An incoming Telegram message event as the handlers see it: effective
user identity, chat type (`"private"` for DMs), message text and the value
of `time.time()` when the handler runs. -/
structure Event where
  user_id : Int
  first_name : Option String
  last_name : Option String
  chat_type : String
  text : String
  now : ℚ

/-- Process state: the database plus the in-memory `last_time_cache`
dictionary mapping a user id to the time of their last awarded point. -/
structure BotState where
  db : DB
  last_time_cache : List (Int × ℚ)

/-- Embeds the `last_time_cache.get(uid)` dictionary lookup. -/
def cacheLookup (cache : List (Int × ℚ)) (uid : Int) : Option ℚ :=
  cache.lookup uid

/-- Python dict assignment `last_time_cache[uid] = v`. -/
def cacheSet (cache : List (Int × ℚ)) (uid : Int) (v : ℚ) : List (Int × ℚ) :=
  if (cacheLookup cache uid).isSome then
    cache.map (fun p => if p.1 == uid then (p.1, v) else p)
  else
    cache ++ [(uid, v)]

/-- Python `last_time_cache.setdefault(uid, v)`: insert only when absent. -/
def cacheSetdefault (cache : List (Int × ℚ)) (uid : Int) (v : ℚ) : List (Int × ℚ) :=
  if (cacheLookup cache uid).isSome then cache else cache ++ [(uid, v)]

/-- The fixed rejection phrase of `web.py`. -/
def rejection_reply : String := "Bawal na boy 😎"

/-- Embeds `int(time.time() * 1000)`, with the float clock modelled by `ℚ`. -/
def msTimestamp (q : ℚ) : Int := Rat.floor (q * 1000)

/-- Embeds `web.py` `give_point_handler`.  Returns the next process state and the
reply sent, if any (`none` models the silent paths).  `MIN_CHARS` and
`COOLDOWN_SECONDS` are the environment-configured module constants. -/
def give_point_handler (min_chars : Nat) (cooldown : ℚ) (st : BotState) (e : Event) :
    BotState × Option String :=
  let text := pyStrip e.text
  if e.chat_type = "private" then
    (st, some rejection_reply)
  else
    let st1 : BotState :=
      { st with db := ensure_user_in_db st.db e.user_id e.first_name e.last_name }
    if text.length < min_chars then
      (st1, some rejection_reply)
    else if is_valid_text_for_points min_chars text = false then
      (st1, some rejection_reply)
    else
      let last : ℚ := (cacheLookup st1.last_time_cache e.user_id).getD 0
      if e.now - last < cooldown then
        (st1, none)
      else
        let st2 : BotState :=
          { st1 with db := add_point_to_db st1.db e.user_id (msTimestamp e.now) none }
        ({ st2 with last_time_cache := cacheSet st2.last_time_cache e.user_id e.now }, none)

/-- Embeds `web.py` `start_handler`: upsert the user, `setdefault` a 0 cooldown
entry, send the welcome text. -/
def start_handler (st : BotState) (e : Event) : BotState × String :=
  let st1 : BotState :=
    { st with db := ensure_user_in_db st.db e.user_id e.first_name e.last_name }
  ({ st1 with last_time_cache := cacheSetdefault st1.last_time_cache e.user_id 0 },
   "👋 Welcome! Type messages with at least 15 characters to earn points. ⏳ 1 point every 20 seconds.")

/-- The reply text of `points_handler` for a given count. -/
def mkPointsReply (pts : Nat) : String := s!"🏆 You currently have {pts} points!"

/-- Embeds `web.py` `points_handler`: upsert the user, then reply with their count. -/
def points_handler (st : BotState) (e : Event) : BotState × String :=
  let db1 := ensure_user_in_db st.db e.user_id e.first_name e.last_name
  let pts := get_user_points_from_db db1 e.user_id
  ({ st with db := db1 }, mkPointsReply pts)

/-- The fallback label for a blank display name. -/
def mkUserLabel (uid : Int) : String := s!"User {uid}"

/-- Embeds `full_name if (full_name and full_name.strip()) else the User label`. -/
def display_name (uid : Int) (fn : Option String) : String :=
  match fn with
  | none => mkUserLabel uid
  | some s => if pyStrip s = "" then mkUserLabel uid else s

/-- One leaderboard display line. -/
def mkLbLine (rank : Nat) (dn : String) (pts : Nat) : String :=
  s!"{rank}. {dn} — {pts} pts"

/-- The numbered leaderboard lines, `enumerate(rows, start=rank)`. -/
def lb_lines : Nat → List (Int × Option String × Nat) → List String
  | _, [] => []
  | rank, (uid, fn, pts) :: rest =>
    mkLbLine rank (display_name uid fn) pts :: lb_lines (rank + 1) rest

/-- Embeds `web.py` `leaderboard_handler`: top 20, `"No points yet."` when empty,
else a header line and one numbered line per entry, joined by newlines. -/
def leaderboard_handler (st : BotState) : String :=
  let rows := get_leaderboard_from_db st.db 20
  if rows.isEmpty then "No points yet."
  else "\n".intercalate ("🏅 Leaderboard:" :: lb_lines 1 rows)

/-! ### Basic lemmas about stripping -/

theorem dropWhile_head_false {α : Type} (p : α → Bool) :
    ∀ (l : List α) (c : α) (rest : List α), l.dropWhile p = c :: rest → p c = false := by
  intro l
  induction l with
  | nil => intro c rest h; simp [List.dropWhile] at h
  | cons a t ih =>
    intro c rest h
    rw [List.dropWhile_cons] at h
    split at h
    · exact ih c rest h
    · next hpa =>
      have hac : a = c := (List.cons.injEq a t c rest ▸ h).1
      subst hac
      exact Bool.eq_false_iff.mpr hpa

theorem dropWhile_exists_append {α : Type} (p : α → Bool) (l : List α) :
    ∃ s, l = s ++ l.dropWhile p := by
  induction l with
  | nil => exact ⟨[], rfl⟩
  | cons a t ih =>
    rw [List.dropWhile_cons]
    split
    · obtain ⟨s, hs⟩ := ih
      exact ⟨a :: s, by rw [List.cons_append, ← hs]⟩
    · exact ⟨[], rfl⟩

theorem dropWhile_eq_self_of_head {α : Type} (p : α → Bool) (l : List α)
    (h : ∀ c rest, l = c :: rest → p c = false) : l.dropWhile p = l := by
  cases l with
  | nil => rfl
  | cons a t =>
    rw [List.dropWhile_cons, if_neg]
    simp [h a t rfl]

theorem pyStripList_head_not_ws (l : List Char) (c : Char) (rest : List Char)
    (h : pyStripList l = c :: rest) : isWS c = false := by
  obtain ⟨s, hs⟩ := dropWhile_exists_append isWS (l.dropWhile isWS).reverse
  have hB : (l.dropWhile isWS).reverse.dropWhile isWS = rest.reverse ++ [c] := by
    have h2 := congrArg List.reverse h
    rw [pyStripList, List.reverse_reverse] at h2
    rw [h2]
    simp
  rw [hB] at hs
  have h3 := congrArg List.reverse hs
  rw [List.reverse_reverse] at h3
  simp only [List.reverse_append, List.reverse_cons, List.reverse_nil, List.nil_append,
    List.reverse_reverse, List.cons_append] at h3
  exact dropWhile_head_false isWS l c _ h3

theorem pyStripList_idem (l : List Char) : pyStripList (pyStripList l) = pyStripList l := by
  have h1 : (pyStripList l).dropWhile isWS = pyStripList l :=
    dropWhile_eq_self_of_head _ _ (fun c rest h => pyStripList_head_not_ws l c rest h)
  have h2 : (pyStripList l).reverse.dropWhile isWS = (pyStripList l).reverse := by
    apply dropWhile_eq_self_of_head
    intro c rest h
    have hrw : (pyStripList l).reverse = (l.dropWhile isWS).reverse.dropWhile isWS := by
      rw [pyStripList, List.reverse_reverse]
    rw [hrw] at h
    exact dropWhile_head_false _ _ _ _ h
  calc pyStripList (pyStripList l)
      = (((pyStripList l).dropWhile isWS).reverse.dropWhile isWS).reverse := rfl
    _ = ((pyStripList l).reverse.dropWhile isWS).reverse := by rw [h1]
    _ = ((pyStripList l).reverse).reverse := by rw [h2]
    _ = pyStripList l := List.reverse_reverse _

theorem pyStrip_idem (s : String) : pyStrip (pyStrip s) = pyStrip s := by
  simp [pyStrip, pyStripList_idem]

/-! ### The Text Validator -/

theorem valid_imp_not_short (m : Nat) (s : String)
    (h : is_valid_text_for_points m s = true) : ¬ ((pyStrip s).length < m) := by
  intro hlt
  unfold is_valid_text_for_points at h
  rw [if_pos hlt] at h
  exact Bool.false_ne_true h

/-- C2.  Any string whose trimmed length is below the `min_length`
threshold (`MIN_CHARS`, configurable, default 15) is not award-worthy. -/
theorem short_text_rejected (min_chars : Nat) (text : String)
    (h : (pyStrip text).length < min_chars) :
    is_valid_text_for_points min_chars text = false := by
  unfold is_valid_text_for_points
  rw [if_pos h]

theorem short_text_rejected_witness :
    (pyStrip ("hi")).length < 15 ∧ is_valid_text_for_points 15 ("hi") = false :=
  ⟨by decide, short_text_rejected 15 ("hi") (by decide)⟩

/-- C4.  The repeated-character rule is a full-string match: whenever the
entire trimmed text is one character repeated at least three times, the
validator rejects, whatever `min_chars` is. -/
theorem repeated_char_fullmatch (min_chars : Nat) (text : String) (c : Char) (n : Nat)
    (h3 : 3 ≤ n) (hrep : (pyStrip text).data = List.replicate n c) :
    is_valid_text_for_points min_chars text = false := by
  by_cases hws : isWS c = true
  · exfalso
    have hcons : pyStripList text.data = c :: List.replicate (n - 1) c := by
      have hdata : (pyStrip text).data = pyStripList text.data := rfl
      rw [hdata] at hrep
      rw [hrep]
      obtain ⟨m, rfl⟩ : ∃ m, n = m + 1 := ⟨n - 1, by omega⟩
      simp [List.replicate_succ]
    have hfalse := pyStripList_head_not_ws text.data c _ hcons
    rw [hws] at hfalse
    simp at hfalse
  · have hc : c ≠ '\n' := by
      intro hceq
      subst hceq
      exact hws (by decide)
    have hmatch : isRepeatedCharMatch (pyStrip text).data = true := by
      rw [hrep]
      obtain ⟨m, rfl⟩ : ∃ m, n = m + 3 := ⟨n - 3, by omega⟩
      rw [List.replicate_succ]
      unfold isRepeatedCharMatch
      simp [hc, List.mem_replicate]
    unfold is_valid_text_for_points
    simp [hmatch]

theorem repeated_char_fullmatch_witness :
    (3 ≤ 20 ∧ (pyStrip ("aaaaaaaaaaaaaaaaaaaa")).data = List.replicate 20 'a')
    ∧ is_valid_text_for_points 15 ("aaaaaaaaaaaaaaaaaaaa") = false
    ∧ is_valid_text_for_points 15 ("hello there zzz friend") = true :=
  ⟨⟨by decide, by decide⟩,
   repeated_char_fullmatch 15 ("aaaaaaaaaaaaaaaaaaaa") 'a' 20 (by decide) (by decide),
   by decide⟩

/-! ### The Award Engine -/

theorem updateNames_user_id (uid : Int) (fn ln : Option String) (u : UserRow) :
    (updateNames uid fn ln u).user_id = u.user_id := by
  unfold updateNames
  split <;> rfl

theorem updateNames_idem (uid : Int) (fn ln : Option String) (u : UserRow) :
    updateNames uid fn ln (updateNames uid fn ln u) = updateNames uid fn ln u := by
  by_cases h : (u.user_id == uid) = true
  · simp [updateNames, h]
  · simp [updateNames, h]

theorem ensure_points (db : DB) (uid : Int) (fn ln : Option String) :
    (ensure_user_in_db db uid fn ln).points = db.points := by
  unfold ensure_user_in_db
  split <;> rfl

theorem count_ensure (db : DB) (uid : Int) (fn ln : Option String) (v : Int) :
    get_user_points_from_db (ensure_user_in_db db uid fn ln) v
      = get_user_points_from_db db v := by
  unfold get_user_points_from_db
  rw [ensure_points]

theorem count_add_point (db : DB) (uid : Int) (ts : Int) (meta : Option String) :
    get_user_points_from_db (add_point_to_db db uid ts meta) uid
      = get_user_points_from_db db uid + 1 := by
  unfold get_user_points_from_db add_point_to_db
  simp [List.filter_append]

/-- C3.  A direct (private-chat) message makes `give_point_handler` send the
fixed rejection reply and terminate with the state fully unchanged: no point
award, no user upsert, no cooldown update, whatever the text says. -/
theorem direct_chat_no_award (min_chars : Nat) (cooldown : ℚ) (st : BotState) (e : Event)
    (h : e.chat_type = "private") :
    give_point_handler min_chars cooldown st e = (st, some rejection_reply) := by
  simp [give_point_handler, h]

theorem direct_chat_no_award_witness :
    give_point_handler 15 20 ⟨init_db, []⟩
        ⟨5, some ("Dana"), none, "private", "this is a perfectly valid long message", 100⟩
      = (⟨init_db, []⟩, some rejection_reply) :=
  direct_chat_no_award 15 20 ⟨init_db, []⟩
    ⟨5, some ("Dana"), none, "private", "this is a perfectly valid long message", 100⟩ rfl

/-- C1.  In a group chat with award-worthy text, `give_point_handler` awards
a point exactly when `now - last_award_time ≥ cooldown_seconds`, where a
missing cooldown entry counts as a last award at time 0 (`.getD 0`); when the
cooldown has not elapsed the point count is unchanged. -/
theorem cooldown_eligibility (min_chars : Nat) (cooldown : ℚ) (st : BotState) (e : Event)
    (hchat : ¬ (e.chat_type = "private"))
    (hvalid : is_valid_text_for_points min_chars (pyStrip e.text) = true) :
    (get_user_points_from_db (give_point_handler min_chars cooldown st e).1.db e.user_id
        = get_user_points_from_db st.db e.user_id + 1
      ↔ cooldown ≤ e.now - ((cacheLookup st.last_time_cache e.user_id).getD 0))
    ∧ (get_user_points_from_db (give_point_handler min_chars cooldown st e).1.db e.user_id
        = get_user_points_from_db st.db e.user_id
      ↔ e.now - ((cacheLookup st.last_time_cache e.user_id).getD 0) < cooldown) := by
  have hlen : ¬ ((pyStrip e.text).length < min_chars) := by
    have hh := valid_imp_not_short min_chars (pyStrip e.text) hvalid
    rwa [pyStrip_idem] at hh
  have hvf : ¬ (is_valid_text_for_points min_chars (pyStrip e.text) = false) := by
    simp [hvalid]
  unfold give_point_handler
  rw [if_neg hchat, if_neg hlen, if_neg hvf]
  by_cases hcd :
      e.now - ((cacheLookup st.last_time_cache e.user_id).getD 0) < cooldown
  · rw [if_pos hcd]
    dsimp only
    rw [count_ensure]
    exact ⟨iff_of_false (by omega) (not_le.mpr hcd), iff_of_true rfl hcd⟩
  · rw [if_neg hcd]
    dsimp only
    rw [count_add_point, count_ensure]
    exact ⟨iff_of_true rfl (le_of_not_lt hcd), iff_of_false (by omega) hcd⟩

def c1_state : BotState := ⟨⟨[⟨1, some ("Alice"), none⟩], [⟨1, 0, none⟩]⟩, [(1, 0)]⟩

def c1_event (t : ℚ) : Event := ⟨1, some ("Alice"), none, "group", "this is a valid message", t⟩

theorem cooldown_eligibility_witness :
    get_user_points_from_db (give_point_handler 15 20 c1_state (c1_event (199/10))).1.db 1
        = get_user_points_from_db c1_state.db 1
    ∧ get_user_points_from_db (give_point_handler 15 20 c1_state (c1_event 20)).1.db 1
        = get_user_points_from_db c1_state.db 1 + 1 :=
  ⟨(cooldown_eligibility 15 20 c1_state (c1_event (199/10)) (by decide) (by decide)).2.mpr
      (by norm_num [c1_state, c1_event, cacheLookup, List.lookup]),
   (cooldown_eligibility 15 20 c1_state (c1_event 20) (by decide) (by decide)).1.mpr
      (by norm_num [c1_state, c1_event, cacheLookup, List.lookup])⟩

/-- C9.  On the in-cooldown path (group chat, valid text, cooldown not yet
elapsed) the handler is silent (`none`), writes no point row, leaves the
cooldown cache untouched, and the only state change is the user upsert. -/
theorem cooldown_path_silent (min_chars : Nat) (cooldown : ℚ) (st : BotState) (e : Event)
    (hchat : ¬ (e.chat_type = "private"))
    (hvalid : is_valid_text_for_points min_chars (pyStrip e.text) = true)
    (hcd : e.now - ((cacheLookup st.last_time_cache e.user_id).getD 0) < cooldown) :
    give_point_handler min_chars cooldown st e
      = ({ st with db := ensure_user_in_db st.db e.user_id e.first_name e.last_name }, none)
    ∧ (give_point_handler min_chars cooldown st e).1.db.points = st.db.points
    ∧ (give_point_handler min_chars cooldown st e).1.last_time_cache = st.last_time_cache := by
  have hlen : ¬ ((pyStrip e.text).length < min_chars) := by
    have hh := valid_imp_not_short min_chars (pyStrip e.text) hvalid
    rwa [pyStrip_idem] at hh
  have hvf : ¬ (is_valid_text_for_points min_chars (pyStrip e.text) = false) := by
    simp [hvalid]
  have hmain : give_point_handler min_chars cooldown st e
      = ({ st with db := ensure_user_in_db st.db e.user_id e.first_name e.last_name }, none) := by
    unfold give_point_handler
    rw [if_neg hchat, if_neg hlen, if_neg hvf, if_pos hcd]
  refine ⟨hmain, ?_, ?_⟩
  · rw [hmain]
    exact ensure_points st.db e.user_id e.first_name e.last_name
  · rw [hmain]

def c9_state : BotState := ⟨⟨[⟨2, some ("Bea"), none⟩], [⟨2, 5000, none⟩]⟩, [(2, 5)]⟩

def c9_event (t : ℚ) : Event := ⟨2, some ("Bea"), none, "group", "another perfectly fine message", t⟩

theorem cooldown_path_silent_witness :
    give_point_handler 15 20 c9_state (c9_event 10)
      = ({ c9_state with
            db := ensure_user_in_db c9_state.db 2 (some ("Bea")) none }, none)
    ∧ (give_point_handler 15 20 c9_state (c9_event 10)).1.db.points = c9_state.db.points
    ∧ (give_point_handler 15 20 c9_state (c9_event 10)).1.last_time_cache
        = c9_state.last_time_cache :=
  cooldown_path_silent 15 20 c9_state (c9_event 10) (by decide) (by decide)
    (by norm_num [c9_state, c9_event, cacheLookup, List.lookup])

/-- C10.  `start_handler` only `setdefault`s a 0 cooldown entry: when the
user already has a cooldown entry, the whole cooldown cache is left
untouched, so issuing `/start` cannot shorten or reset a running cooldown. -/
theorem start_preserves_cooldown (st : BotState) (e : Event) (t : ℚ)
    (h : cacheLookup st.last_time_cache e.user_id = some t) :
    (start_handler st e).1.last_time_cache = st.last_time_cache
    ∧ cacheLookup (start_handler st e).1.last_time_cache e.user_id = some t := by
  have hunch : (start_handler st e).1.last_time_cache = st.last_time_cache := by
    unfold start_handler
    dsimp only
    unfold cacheSetdefault
    rw [if_pos (by simp [h])]
  exact ⟨hunch, by rw [hunch, h]⟩

def c10_state : BotState := ⟨⟨[⟨3, some ("Caro"), none⟩], []⟩, [(3, 7)]⟩

def c10_event : Event := ⟨3, some ("Caro"), none, "group", "/start", 9⟩

theorem start_preserves_cooldown_witness :
    (start_handler c10_state c10_event).1.last_time_cache = c10_state.last_time_cache
    ∧ cacheLookup (start_handler c10_state c10_event).1.last_time_cache 3 = some 7 :=
  start_preserves_cooldown c10_state c10_event 7 (by decide)

/-! ### The Leaderboard/Stats Reporter -/

/-- C6.  `points_handler` always upserts the caller first and replies with
`count_points` of the upserted database; for a user id never seen before the
count is 0 and exactly one user row for that id exists afterwards. -/
theorem points_summary_spec (st : BotState) (e : Event)
    (hu : ∀ u ∈ st.db.users, ¬ (u.user_id = e.user_id))
    (hp : ∀ p ∈ st.db.points, ¬ (p.user_id = e.user_id)) :
    (∀ (st2 : BotState) (e2 : Event),
        (points_handler st2 e2).1.db
            = ensure_user_in_db st2.db e2.user_id e2.first_name e2.last_name
        ∧ (points_handler st2 e2).2
            = mkPointsReply (get_user_points_from_db
                (ensure_user_in_db st2.db e2.user_id e2.first_name e2.last_name) e2.user_id))
    ∧ get_user_points_from_db (points_handler st e).1.db e.user_id = 0
    ∧ (points_handler st e).1.db.users.filter (fun u => u.user_id == e.user_id)
        = [⟨e.user_id, e.first_name, e.last_name⟩] := by
  refine ⟨fun st2 e2 => ⟨rfl, rfl⟩, ?_, ?_⟩
  · show get_user_points_from_db
        (ensure_user_in_db st.db e.user_id e.first_name e.last_name) e.user_id = 0
    rw [count_ensure]
    unfold get_user_points_from_db
    rw [List.filter_eq_nil_iff.mpr (by simpa using hp)]
    rfl
  · show (ensure_user_in_db st.db e.user_id e.first_name e.last_name).users.filter
        (fun u => u.user_id == e.user_id) = [⟨e.user_id, e.first_name, e.last_name⟩]
    unfold ensure_user_in_db
    rw [if_neg (by simpa using hu)]
    dsimp only
    rw [List.filter_append, List.filter_eq_nil_iff.mpr (by simpa using hu)]
    simp

theorem points_summary_spec_witness :
    get_user_points_from_db
        (points_handler ⟨init_db, []⟩ ⟨9, some ("Eve"), some ("Lyn"), "group", "/points", 3⟩).1.db 9 = 0
    ∧ (points_handler ⟨init_db, []⟩
          ⟨9, some ("Eve"), some ("Lyn"), "group", "/points", 3⟩).1.db.users.filter
        (fun u => u.user_id == 9) = [⟨9, some ("Eve"), some ("Lyn")⟩] :=
  ⟨(points_summary_spec ⟨init_db, []⟩ ⟨9, some ("Eve"), some ("Lyn"), "group", "/points", 3⟩
      (by simp [init_db]) (by simp [init_db])).2.1,
   (points_summary_spec ⟨init_db, []⟩ ⟨9, some ("Eve"), some ("Lyn"), "group", "/points", 3⟩
      (by simp [init_db]) (by simp [init_db])).2.2⟩

/-- C8.  `ensure_user_in_db` is idempotent by identity: a second upsert with
the same identity and names changes nothing, and (when the table held at
most one row for that id, as the `user_id` primary key guarantees) exactly
one row with those field values remains. -/
theorem upsert_idempotent (db : DB) (uid : Int) (fn ln : Option String)
    (h : (db.users.filter (fun u => u.user_id == uid)).length ≤ 1) :
    ensure_user_in_db (ensure_user_in_db db uid fn ln) uid fn ln
        = ensure_user_in_db db uid fn ln
    ∧ (ensure_user_in_db db uid fn ln).users.filter (fun u => u.user_id == uid)
        = [⟨uid, fn, ln⟩] := by
  by_cases hany : db.users.any (fun u => u.user_id == uid) = true
  · have h1 : ensure_user_in_db db uid fn ln
        = { db with users := db.users.map (updateNames uid fn ln) } := by
      unfold ensure_user_in_db
      rw [if_pos hany]
    obtain ⟨u0, hu0mem, hu0p⟩ := List.any_eq_true.mp hany
    have hany2 : (db.users.map (updateNames uid fn ln)).any
        (fun u => u.user_id == uid) = true := by
      refine List.any_eq_true.mpr ⟨updateNames uid fn ln u0, List.mem_map_of_mem _ hu0mem, ?_⟩
      rw [updateNames_user_id]
      exact hu0p
    constructor
    · rw [h1]
      unfold ensure_user_in_db
      rw [if_pos hany2]
      dsimp only
      congr 1
      rw [List.map_map]
      exact List.map_congr_left (fun u _ => updateNames_idem uid fn ln u)
    · rw [h1]
      dsimp only
      rw [List.filter_map]
      have hpf : ((fun u : UserRow => u.user_id == uid) ∘ updateNames uid fn ln)
          = (fun u : UserRow => u.user_id == uid) := by
        funext u
        simp [Function.comp, updateNames_user_id]
      rw [hpf]
      have hlen1 : (db.users.filter (fun u => u.user_id == uid)).length = 1 := by
        have hpos : 0 < (db.users.filter (fun u => u.user_id == uid)).length := by
          apply List.length_pos.mpr
          intro hnil
          have := List.filter_eq_nil_iff.mp hnil u0 hu0mem
          exact this hu0p
        omega
      obtain ⟨w, hw⟩ := List.length_eq_one.mp hlen1
      rw [hw]
      have hwmem : w ∈ db.users.filter (fun u => u.user_id == uid) := by
        rw [hw]; exact List.mem_cons_self w []
      have hwp : (w.user_id == uid) = true := (List.mem_filter.mp hwmem).2
      have hwid : w.user_id = uid := by simpa using hwp
      simp [updateNames, hwp, hwid]
  · have h1 : ensure_user_in_db db uid fn ln
        = { db with users := db.users ++ [⟨uid, fn, ln⟩] } := by
      unfold ensure_user_in_db
      rw [if_neg hany]
    have hany2 : ((db.users ++ [(⟨uid, fn, ln⟩ : UserRow)]).any
        (fun u => u.user_id == uid)) = true := by
      simp
    have hnom : ∀ u ∈ db.users, ¬ ((u.user_id == uid) = true) := by
      intro u hu
      have := List.any_eq_false.mp (Bool.eq_false_iff.mpr hany) u hu
      simpa using this
    constructor
    · rw [h1]
      unfold ensure_user_in_db
      rw [if_pos hany2]
      dsimp only
      congr 1
      rw [List.map_append]
      have hself : db.users.map (updateNames uid fn ln) = db.users := by
        have hcongr : db.users.map (updateNames uid fn ln) = db.users.map id :=
          List.map_congr_left (fun u hu => by
            have hne : (u.user_id == uid) = false := Bool.eq_false_iff.mpr (hnom u hu)
            simp [updateNames, hne])
        rw [hcongr, List.map_id]
      rw [hself]
      simp [updateNames]
    · rw [h1]
      dsimp only
      rw [List.filter_append, List.filter_eq_nil_iff.mpr hnom]
      simp

/-! ### Leaderboard ordering -/

theorem listLeChar_total : ∀ a b : List Char, listLeChar a b = true ∨ listLeChar b a = true := by
  intro a
  induction a with
  | nil => intro b; left; rfl
  | cons x xs ih =>
    intro b
    cases b with
    | nil => right; rfl
    | cons y ys =>
      by_cases h1 : x.toNat < y.toNat
      · left
        simp [listLeChar, h1]
      · by_cases h2 : y.toNat < x.toNat
        · right
          simp [listLeChar, h2]
        · rcases ih ys with h | h
          · left
            simp only [listLeChar, if_neg h1, if_neg h2]
            exact h
          · right
            simp only [listLeChar, if_neg h2, if_neg h1]
            exact h

theorem listLeChar_trans : ∀ a b c : List Char,
    listLeChar a b = true → listLeChar b c = true → listLeChar a c = true := by
  intro a
  induction a with
  | nil => intro b c _ _; rfl
  | cons x xs ih =>
    intro b c hab hbc
    cases b with
    | nil => simp [listLeChar] at hab
    | cons y ys =>
      cases c with
      | nil => simp [listLeChar] at hbc
      | cons z zs =>
        simp only [listLeChar] at hab hbc ⊢
        by_cases hxy : x.toNat < y.toNat
        · rw [if_pos hxy] at hab
          by_cases hyz : y.toNat < z.toNat
          · rw [if_pos (by omega : x.toNat < z.toNat)]
          · by_cases hzy : z.toNat < y.toNat
            · rw [if_neg hyz, if_pos hzy] at hbc
              simp at hbc
            · rw [if_pos (by omega : x.toNat < z.toNat)]
        · by_cases hyx : y.toNat < x.toNat
          · rw [if_neg hxy, if_pos hyx] at hab
            simp at hab
          · rw [if_neg hxy, if_neg hyx] at hab
            by_cases hyz : y.toNat < z.toNat
            · rw [if_pos (by omega : x.toNat < z.toNat)]
            · by_cases hzy : z.toNat < y.toNat
              · rw [if_neg hyz, if_pos hzy] at hbc
                simp at hbc
              · rw [if_neg hyz, if_neg hzy] at hbc
                rw [if_neg (by omega : ¬ x.toNat < z.toNat),
                  if_neg (by omega : ¬ z.toNat < x.toNat)]
                exact ih ys zs hab hbc

theorem nameLE_total : ∀ a b : Option String, nameLE a b = true ∨ nameLE b a = true := by
  intro a b
  cases a with
  | none => left; rfl
  | some s =>
    cases b with
    | none => right; rfl
    | some t => exact listLeChar_total s.data t.data

theorem nameLE_trans : ∀ a b c : Option String,
    nameLE a b = true → nameLE b c = true → nameLE a c = true := by
  intro a b c hab hbc
  cases a with
  | none => rfl
  | some s =>
    cases b with
    | none => simp [nameLE] at hab
    | some t =>
      cases c with
      | none => simp [nameLE] at hbc
      | some u => exact listLeChar_trans s.data t.data u.data hab hbc

instance : IsTotal LBEntry lbLE := by
  constructor
  intro x y
  unfold lbLE
  rcases Nat.lt_trichotomy x.points y.points with h | h | h
  · right; left; exact h
  · rcases nameLE_total x.first_name y.first_name with hn | hn
    · left; right; exact ⟨h, hn⟩
    · right; right; exact ⟨h.symm, hn⟩
  · left; left; exact h

instance : IsTrans LBEntry lbLE := by
  constructor
  intro x y z hxy hyz
  unfold lbLE at hxy hyz ⊢
  rcases hxy with h1 | ⟨h1, h1n⟩ <;> rcases hyz with h2 | ⟨h2, h2n⟩
  · left; omega
  · left; omega
  · left; omega
  · right; exact ⟨by omega, nameLE_trans _ _ _ h1n h2n⟩

def c5_example_db : DB :=
  ⟨[⟨1, some ("Alice"), none⟩, ⟨2, some ("Bob"), none⟩, ⟨3, some ("Carol"), none⟩],
   [⟨1, 0, none⟩, ⟨1, 1, none⟩, ⟨1, 2, none⟩,
    ⟨2, 3, none⟩, ⟨2, 4, none⟩, ⟨2, 5, none⟩,
    ⟨3, 6, none⟩]⟩

/-- C5.  The leaderboard query sorts the grouped user rows (each user with
its point count, 0 when it has no point rows) by count descending with ties
broken by `first_name` ascending, projects to
`(user_id, display_name, count)` and truncates to `limit`; on the example
database with A (3 points), B (3 points), C (1 point), where the first name
of A sorts alphabetically before that of B, the order is A, B, C. -/
theorem leaderboard_spec (db : DB) (limit : Nat) :
    List.Sorted lbLE (sortedEntries db)
    ∧ List.Perm (sortedEntries db) (lbEntries db)
    ∧ get_leaderboard_from_db db limit = ((sortedEntries db).map lbRow).take limit
    ∧ get_leaderboard_from_db c5_example_db 20
        = [(1, some ("Alice"), 3), (2, some ("Bob"), 3), (3, some ("Carol"), 1)] :=
  ⟨List.sorted_insertionSort lbLE (lbEntries db),
   List.perm_insertionSort lbLE (lbEntries db),
   rfl,
   by decide⟩

def c8_db : DB := ⟨[⟨4, some ("Old"), some ("Name")⟩], []⟩

theorem upsert_idempotent_witness :
    ((c8_db.users.filter (fun u => u.user_id == 4)).length ≤ 1)
    ∧ ensure_user_in_db (ensure_user_in_db c8_db 4 (some ("New")) none) 4 (some ("New")) none
        = ensure_user_in_db c8_db 4 (some ("New")) none
    ∧ (ensure_user_in_db c8_db 4 (some ("New")) none).users.filter (fun u => u.user_id == 4)
        = [⟨4, some ("New"), none⟩] :=
  ⟨by decide,
   (upsert_idempotent c8_db 4 (some ("New")) none (by decide)).1,
   (upsert_idempotent c8_db 4 (some ("New")) none (by decide)).2⟩

theorem lb_lines_getElem (rows : List (Int × Option String × Nat)) :
    ∀ (n k : Nat), (lb_lines n rows)[k]?
      = (rows[k]?).map (fun r => mkLbLine (n + k) (display_name r.1 r.2.1) r.2.2) := by
  induction rows with
  | nil => intro n k; simp [lb_lines]
  | cons hd tl ih =>
    intro n k
    obtain ⟨uid, fn, pts⟩ := hd
    cases k with
    | zero => simp [lb_lines]
    | succ k =>
      have hnk : n + 1 + k = n + (k + 1) := by omega
      simp only [lb_lines, List.getElem?_cons_succ, ih (n + 1) k, hnk]

/-- C7.  `leaderboard_handler` replies with the single "No points yet." line
when the leaderboard is empty; otherwise it emits the header plus one line
per entry, the k-th entry being numbered with rank k+1, and a blank
display name (SQL `NULL`, or a name that strips to nothing) is replaced by
the `"User {user_id}"` label. -/
theorem leaderboard_report_spec (st : BotState) :
    (get_leaderboard_from_db st.db 20 = [] → leaderboard_handler st = "No points yet.")
    ∧ (¬ (get_leaderboard_from_db st.db 20 = []) →
        leaderboard_handler st
          = "\n".intercalate ("🏅 Leaderboard:" :: lb_lines 1 (get_leaderboard_from_db st.db 20)))
    ∧ (∀ (k : Nat) (uid : Int) (fn : Option String) (pts : Nat),
        (get_leaderboard_from_db st.db 20)[k]? = some (uid, fn, pts) →
        (lb_lines 1 (get_leaderboard_from_db st.db 20))[k]?
          = some (mkLbLine (k + 1) (display_name uid fn) pts))
    ∧ (∀ uid : Int, display_name uid none = mkUserLabel uid)
    ∧ (∀ (uid : Int) (s : String), pyStrip s = "" → display_name uid (some s) = mkUserLabel uid) := by
  refine ⟨?_, ?_, ?_, fun uid => rfl, ?_⟩
  · intro h
    unfold leaderboard_handler
    rw [if_pos (by simp [h])]
  · intro h
    unfold leaderboard_handler
    rw [if_neg (by simp [List.isEmpty_iff, h])]
  · intro k uid fn pts h
    rw [lb_lines_getElem (get_leaderboard_from_db st.db 20) 1 k, h]
    simp [Nat.add_comm]
  · intro uid s h
    simp [display_name, h]

def c7_state : BotState := ⟨⟨[⟨6, some (" "), none⟩], [⟨6, 0, none⟩]⟩, []⟩

theorem leaderboard_report_spec_witness :
    leaderboard_handler ⟨init_db, []⟩ = "No points yet."
    ∧ (lb_lines 1 (get_leaderboard_from_db c7_state.db 20))[0]?
        = some (mkLbLine 1 (display_name 6 (some (""))) 1)
    ∧ display_name 6 (some (" ")) = mkUserLabel 6 :=
  ⟨(leaderboard_report_spec ⟨init_db, []⟩).1 (by decide),
   (leaderboard_report_spec c7_state).2.2.1 0 6 (some ("")) 1 (by decide),
   (leaderboard_report_spec c7_state).2.2.2.2 6 " " (by decide)⟩

end Point
